import Mathlib

/-!
Verification development for the JCL utility-usage extraction engine
(`automationaccelerator/modules/jcl_utilscan.py`).

The embedding works over `Str := List Char`.  Python lines produced by
`readlines()` carry their `'\n'` terminator; we model lines without the
terminator, which preserves the behaviour of every matcher below since no
pattern matches across a newline (`.`, `[^,\s]+`, `\w+`, `\S+` all exclude
`'\n'`) and `strip()` agrees on both representations.

The filesystem is abstracted as a structure `FS` of pure functions:
`pathExists` models `os.path.exists`, `read` models `open(...).read()`
(returning `Except` so that an `IOError` raised by `open`/`read` is an
explicit `.error`), and `walk` models `os.walk` as the list of
`(root, files)` pairs it yields.
-/

abbrev Str := List Char

deriving instance DecidableEq for Except

/-- Python `str.upper` / `.lower` character-wise case folding (ASCII, which is
all JCL uses). -/
def lowerC (c : Char) : Char := c.toLower

/-- Python regex `\s` on the ASCII range: space, tab, newline, carriage
return, vertical tab, form feed. -/
def isSpaceChar (c : Char) : Bool :=
  c = ' ' || c = '\t' || c = '\n' || c = '\r' || c = '\x0b' || c = '\x0c'

/-- Python regex `\w` on the ASCII range: letters, digits, underscore. -/
def isWordChar (c : Char) : Bool :=
  c.isAlphanum || c = '_'

/-- Python `str.strip()` : drop leading and trailing whitespace. -/
def pyStrip (s : Str) : Str :=
  ((s.dropWhile isSpaceChar).reverse.dropWhile isSpaceChar).reverse

/-- Python `str.upper()` (ASCII). -/
def pyUpper (s : Str) : Str := s.map Char.toUpper

/-- Python `str.startswith(pat)`. -/
def startsWithL : Str → Str → Bool
  | [], _ => true
  | _ :: _, [] => false
  | p :: ps, c :: cs => p = c && startsWithL ps cs

/-- Python `str.endswith(pat)`. -/
def endsWithL (pat s : Str) : Bool :=
  startsWithL pat.reverse s.reverse

/-- Match the literal `pat` case-insensitively at the head of `s`, returning
the remainder on success.  This is how a fixed word such as `EXEC` inside an
`re.IGNORECASE` pattern consumes input. -/
def matchCI : Str → Str → Option Str
  | [], s => some s
  | _ :: _, [] => none
  | p :: ps, c :: cs => if lowerC p = lowerC c then matchCI ps cs else none

/-- Match the literal `pat` case-sensitively at the head of `s` (patterns
compiled without `re.IGNORECASE`). -/
def matchCS : Str → Str → Option Str
  | [], s => some s
  | _ :: _, [] => none
  | p :: ps, c :: cs => if p = c then matchCS ps cs else none

/-- Python `os.path.join(a, b)` for the relative-path shapes this program
builds (`join("", b) = b`, otherwise `a ++ "/" ++ b`). -/
def pathJoinL (a b : Str) : Str :=
  if a = [] then b else a ++ '/' :: b

/-- Python `os.path.basename`: the part after the last `/`. -/
def pyBasename (p : Str) : Str :=
  (p.reverse.takeWhile (fun c => c ≠ '/')).reverse

/-- Python `f.readlines()` of a whole file content, modelled without the
`'\n'` terminators: split on `'\n'`, dropping the empty fragment a trailing
newline produces, and yielding `[]` for the empty file exactly as
`readlines` does. -/
def splitNlAux : Str → Str → List Str
  | [], cur => [cur.reverse]
  | '\n' :: rest, cur => cur.reverse :: splitNlAux rest []
  | c :: rest, cur => splitNlAux rest (c :: cur)

def pyReadlines (s : Str) : List Str :=
  if s = [] then []
  else
    let parts := splitNlAux s []
    if parts.getLast? = some [] then parts.dropLast else parts

/-- Python `"\n".join(blocks)`. -/
def joinNl (ls : List Str) : Str :=
  List.intercalate ['\n'] ls

/-!
Matchers for the regular expressions of `jcl_utilscan.py`.  Each is a
deterministic translation: wherever the pattern juxtaposes `\S+`/`\w+`
with a disjoint follower (whitespace, `=`, a literal word), greedy matching
with backtracking degenerates to taking the maximal run, which is what the
definitions below do.  `re.match` anchors at the start of the line;
`re.search` tries every start position left to right.
-/

/-- The regex `\b` immediately before the interpolated parameter name.  Every
call site interpolates a `\w+` capture, so the name begins with a word
character and the boundary holds exactly when the previous character is
absent or is not a word character. -/
def wordBoundaryBefore : Option Char → Bool
  | none => true
  | some c => !isWordChar c

/-- Tail `\s*=\s*([^,\s]+)` shared by the parameter-override patterns
(line 76, 104, 123 of the source). -/
def paramTail (s : Str) : Option Str :=
  match s.dropWhile isSpaceChar with
  | '=' :: r2 =>
    let v := (r2.dropWhile isSpaceChar).takeWhile (fun c => !(c = ',' || isSpaceChar c))
    if v = [] then none else some v
  | _ => none

/-- Worker for `re.search(rf"\b{param_name}\s*=\s*([^,\s]+)", line, re.IGNORECASE)`:
leftmost position whose boundary, literal name, and tail all match. -/
def paramSearchAux (param : Str) : Option Char → Str → Option Str
  | _, [] => none
  | prev, c :: cs =>
    match (if wordBoundaryBefore prev then
             match matchCI param (c :: cs) with
             | some r => paramTail r
             | none => none
           else none) with
    | some v => some v
    | none => paramSearchAux param (some c) cs

def paramSearch (param line : Str) : Option Str :=
  paramSearchAux param none line

/-- Worker for the `.*\b{param_name}\s*=\s*([^,\s]+)` tail of the PROC-default
pattern: the greedy `.*` backtracks minimally, so the match that determines
the captured group is the rightmost one. -/
def lastParamAux (param : Str) : Option Char → Str → Option Str
  | _, [] => none
  | prev, c :: cs =>
    match lastParamAux param (some c) cs with
    | some v => some v
    | none =>
      if wordBoundaryBefore prev then
        match matchCI param (c :: cs) with
        | some r => paramTail r
        | none => none
      else none

/-- Head `//\S+\s+PROC\b` of the PROC-default pattern (source line 87),
anchored at the current position; returns the remainder after `PROC`. -/
def procDefHeadAt (s : Str) : Option Str :=
  match s with
  | '/' :: '/' :: rest =>
    let tok := rest.takeWhile (fun c => !isSpaceChar c)
    let r1 := rest.dropWhile (fun c => !isSpaceChar c)
    if tok = [] then none else
    let sp := r1.takeWhile isSpaceChar
    let r2 := r1.dropWhile isSpaceChar
    if sp = [] then none else
    match matchCI "PROC".data r2 with
    | none => none
    | some r3 =>
      match r3 with
      | [] => some []
      | c :: _ => if isWordChar c then none else some r3
  | _ => none

/-- Model of `re.search(rf"//\S+\s+PROC\b.*\b{param_name}\s*=\s*([^,\s]+)",
proc_line, re.IGNORECASE)`.  The character before the `.*` region is the last
letter of `PROC`, a word character, hence the `some 'C'` context. -/
def procDefSearchAux (param : Str) : Str → Option Str
  | [] => none
  | c :: cs =>
    match (match procDefHeadAt (c :: cs) with
           | some r3 => lastParamAux param (some 'C') r3
           | none => none) with
    | some v => some v
    | none => procDefSearchAux param cs

def procDefSearch (param line : Str) : Option Str :=
  procDefSearchAux param line

/-- Model of `re.match(r"//\s+SET\s+(\w+)=(.+)", line, re.IGNORECASE)`
(source line 65), returning the name and raw value captures. -/
def setMatch (line : Str) : Option (Str × Str) :=
  match line with
  | '/' :: '/' :: rest =>
    let sp := rest.takeWhile isSpaceChar
    let r1 := rest.dropWhile isSpaceChar
    if sp = [] then none else
    match matchCI "SET".data r1 with
    | none => none
    | some r2 =>
      let sp2 := r2.takeWhile isSpaceChar
      let r3 := r2.dropWhile isSpaceChar
      if sp2 = [] then none else
      let name := r3.takeWhile isWordChar
      let r4 := r3.dropWhile isWordChar
      if name = [] then none else
      match r4 with
      | '=' :: rest2 => if rest2 = [] then none else some (name, rest2)
      | _ => none
  | _ => none

/-- Model of `re.match(r"//\S+\s+EXEC\s+(\w+)", line, re.IGNORECASE)`
(source line 72), returning the captured procedure name. -/
def execMatch (line : Str) : Option Str :=
  match line with
  | '/' :: '/' :: rest =>
    let tok := rest.takeWhile (fun c => !isSpaceChar c)
    let r1 := rest.dropWhile (fun c => !isSpaceChar c)
    if tok = [] then none else
    let sp := r1.takeWhile isSpaceChar
    let r2 := r1.dropWhile isSpaceChar
    if sp = [] then none else
    match matchCI "EXEC".data r2 with
    | none => none
    | some r3 =>
      let sp2 := r3.takeWhile isSpaceChar
      let r4 := r3.dropWhile isSpaceChar
      if sp2 = [] then none else
      let w := r4.takeWhile isWordChar
      if w = [] then none else some w
  | _ => none

/-- Head `//\s*INCLUDE\s+MEMBER\s*=\s*(\w+)` of the INCLUDE pattern
(source line 93), anchored at the current position. -/
def includeHeadAt (s : Str) : Option Str :=
  match s with
  | '/' :: '/' :: rest =>
    let r1 := rest.dropWhile isSpaceChar
    match matchCI "INCLUDE".data r1 with
    | none => none
    | some r2 =>
      let sp := r2.takeWhile isSpaceChar
      let r3 := r2.dropWhile isSpaceChar
      if sp = [] then none else
      match matchCI "MEMBER".data r3 with
      | none => none
      | some r4 =>
        match r4.dropWhile isSpaceChar with
        | '=' :: r6 =>
          let w := (r6.dropWhile isSpaceChar).takeWhile isWordChar
          if w = [] then none else some w
        | _ => none
  | _ => none

def includeSearchAux : Str → Option Str
  | [] => none
  | c :: cs =>
    match includeHeadAt (c :: cs) with
    | some m => some m
    | none => includeSearchAux cs

def includeSearch (line : Str) : Option Str :=
  includeSearchAux line

/-- Token alternation `(\b\w+\b|&\w+)` of the step regex.  The position is
always preceded by whitespace or `=`, so the leading `\b` holds exactly when
the head is a word character; the trailing `\b` after a maximal `\w+` run is
automatic. -/
def altProgToken (s : Str) : Option Str :=
  match s with
  | '&' :: r =>
    let w := r.takeWhile isWordChar
    if w = [] then none else some ('&' :: w)
  | _ =>
    let w := s.takeWhile isWordChar
    if w = [] then none else some w

/-- Model of `re.match(r"//(\S+)\s+EXEC\s+(?:PGM\s*=\s*)?(\b\w+\b|&\w+)",
line, re.IGNORECASE)` (source line 175): the step name and the program
token.  The optional `PGM\s*=\s*` group is tried first; when it fails the
token is matched directly where the group began. -/
def stepExecMatch (line : Str) : Option (Str × Str) :=
  match line with
  | '/' :: '/' :: rest =>
    let tok := rest.takeWhile (fun c => !isSpaceChar c)
    let r1 := rest.dropWhile (fun c => !isSpaceChar c)
    if tok = [] then none else
    let sp := r1.takeWhile isSpaceChar
    let r2 := r1.dropWhile isSpaceChar
    if sp = [] then none else
    match matchCI "EXEC".data r2 with
    | none => none
    | some r3 =>
      let sp2 := r3.takeWhile isSpaceChar
      let r4 := r3.dropWhile isSpaceChar
      if sp2 = [] then none else
      let withPgm : Option Str :=
        match matchCI "PGM".data r4 with
        | none => none
        | some r5 =>
          match r5.dropWhile isSpaceChar with
          | '=' :: r7 => altProgToken (r7.dropWhile isSpaceChar)
          | _ => none
      match withPgm with
      | some p => some (tok, p)
      | none =>
        match altProgToken r4 with
        | some p => some (tok, p)
        | none => none
  | _ => none

/-- Model of `re.match(r"//\*\s*EXEC", line, re.IGNORECASE)` (source
line 171): a comment line whose first token is EXEC, skipped by the
extractor. -/
def commentExecMatch (line : Str) : Bool :=
  match line with
  | '/' :: '/' :: '*' :: rest => (matchCI "EXEC".data (rest.dropWhile isSpaceChar)).isSome
  | _ => false

/-- Model of `re.match(r"//\S+\s+EXEC\s+PGM=", l, re.IGNORECASE)` (source
lines 201 and 211): the boundary test of both capture scans. -/
def execPgmMatch (line : Str) : Bool :=
  match line with
  | '/' :: '/' :: rest =>
    let tok := rest.takeWhile (fun c => !isSpaceChar c)
    let r1 := rest.dropWhile (fun c => !isSpaceChar c)
    if tok = [] then false else
    let sp := r1.takeWhile isSpaceChar
    let r2 := r1.dropWhile isSpaceChar
    if sp = [] then false else
    match matchCI "EXEC".data r2 with
    | none => false
    | some r3 =>
      let sp2 := r3.takeWhile isSpaceChar
      let r4 := r3.dropWhile isSpaceChar
      if sp2 = [] then false else
      match matchCI "PGM".data r4 with
      | none => false
      | some ('=' :: _) => true
      | some _ => false
  | _ => false

/-- Head `//\s*SYSIN\s+DD\s+` shared by the two SYSIN patterns of source
lines 225 and 230; these patterns are compiled without `re.IGNORECASE`,
hence the case-sensitive literals. -/
def sysinHeadAt (s : Str) : Option Str :=
  match s with
  | '/' :: '/' :: rest =>
    let r1 := rest.dropWhile isSpaceChar
    match matchCS "SYSIN".data r1 with
    | none => none
    | some r2 =>
      let sp := r2.takeWhile isSpaceChar
      let r3 := r2.dropWhile isSpaceChar
      if sp = [] then none else
      match matchCS "DD".data r3 with
      | none => none
      | some r4 =>
        let sp2 := r4.takeWhile isSpaceChar
        let r5 := r4.dropWhile isSpaceChar
        if sp2 = [] then none else some r5
  | _ => none

/-- Model of `re.search(r"//\s*SYSIN\s+DD\s+\*", step_line)`. -/
def sysinInlineSearch : Str → Bool
  | [] => false
  | c :: cs =>
    (match sysinHeadAt (c :: cs) with
     | some ('*' :: _) => true
     | _ => false) || sysinInlineSearch cs

/-- Model of `re.search(r"//\s*SYSIN\s+DD\s+DSN=", step_line)`. -/
def sysinDsnSearch : Str → Bool
  | [] => false
  | c :: cs =>
    (match sysinHeadAt (c :: cs) with
     | some r5 =>
       match matchCS "DSN".data r5 with
       | some ('=' :: _) => true
       | _ => false
     | none => false) || sysinDsnSearch cs

/-- Splits `t = a ++ '(' :: rest` with `a` nonempty and comma-free, in
left-to-right order; candidates stop at the first comma since `[^,]+`
cannot cross it. -/
def parenSplitsAux : Str → Str → List (Str × Str)
  | _, [] => []
  | acc, c :: cs =>
    let here := if c = '(' ∧ acc ≠ [] then [(acc.reverse, cs)] else []
    if c = ',' then here else here ++ parenSplitsAux (c :: acc) cs

/-- Tail `[^,]+\(([^)]+)\)` after a matched `DSN=`: the greedy `[^,]+`
backtracks minimally, so the rightmost workable `(` wins. -/
def dsnTail (t : Str) : Option Str :=
  (parenSplitsAux [] t).reverse.findSome? (fun ar =>
    let b := ar.2.takeWhile (fun c => c ≠ ')')
    let r := ar.2.dropWhile (fun c => c ≠ ')')
    if b = [] then none else
    match r with
    | ')' :: _ => some b
    | _ => none)

/-- Model of `re.search(r"DSN=[^,]+\(([^)]+)\)", step_line)` (source
line 232): the control-card member name. -/
def dsnMemberSearch : Str → Option Str
  | [] => none
  | c :: cs =>
    match (match matchCS "DSN=".data (c :: cs) with
           | some t => dsnTail t
           | none => none) with
    | some m => some m
    | none => dsnMemberSearch cs

/-- Abstract filesystem.  `pathExists` models `os.path.exists`; `read`
models opening and reading a file, with `.error` standing for a raised
`IOError`; `walk` models `os.walk` as the `(root, files)` pairs it yields. -/
structure FS where
  pathExists : Str → Bool
  read : Str → Except Str Str
  walk : Str → List (Str × List Str)

/-- Phase 1 of `resolve_symbolic_parameter` (source lines 63-67): the first
line whose `// SET name=value` name equals the parameter case-insensitively
yields its stripped value. -/
def setLoop (param : Str) (jcl : List Str) : Option Str :=
  jcl.findSome? (fun line =>
    match setMatch line with
    | some nv => if pyUpper nv.1 = pyUpper param then some (pyStrip nv.2) else none
    | none => none)

/-- Model of `find_proc_content` (source lines 133-149): the first PROC
library containing `<procName>.proc` is read — an `IOError` from that read
propagates since the call is not guarded. -/
def find_proc_content (fs : FS) (procName : Str) : List Str → Except Str (Option (List Str))
  | [] => .ok none
  | lib :: rest =>
    let procPath := pathJoinL lib (procName ++ ".proc".data)
    if fs.pathExists procPath then
      (fs.read procPath).map (fun content => some (pyReadlines content))
    else find_proc_content fs procName rest

/-- One iteration of the EXEC loop of `resolve_symbolic_parameter` (source
lines 70-89): on an EXEC line, the same-line override is checked first,
then that line's PROC definition is searched for a default. -/
def execLineStep (fs : FS) (param : Str) (procLibs : List Str) (line : Str) :
    Except Str (Option Str) :=
  match execMatch line with
  | none => .ok none
  | some procName =>
    match paramSearch param line with
    | some v => .ok (some v)
    | none =>
      match find_proc_content fs procName procLibs with
      | .error e => .error e
      | .ok none => .ok none
      | .ok (some content) => .ok (content.findSome? (procDefSearch param))

/-- Phase 2 of `resolve_symbolic_parameter`: the EXEC loop. -/
def execLoop (fs : FS) (param : Str) (procLibs : List Str) : List Str → Except Str (Option Str)
  | [] => .ok none
  | line :: rest =>
    match execLineStep fs param procLibs line with
    | .error e => .error e
    | .ok (some v) => .ok (some v)
    | .ok none => execLoop fs param procLibs rest

/-- Phase 3 of `resolve_symbolic_parameter` (source lines 92-106): INCLUDE
statements.  The member read at line 100 is not guarded, so a raised
`IOError` propagates. -/
def includeLoop (fs : FS) (param : Str) (cntllib : Str) : List Str → Except Str (Option Str)
  | [] => .ok none
  | line :: rest =>
    match includeSearch line with
    | none => includeLoop fs param cntllib rest
    | some member =>
      if cntllib ≠ [] then
        let memberPath := pathJoinL cntllib (member ++ ".incl".data)
        if fs.pathExists memberPath then
          match fs.read memberPath with
          | .error e => .error e
          | .ok content =>
            match (pyReadlines content).findSome? (paramSearch param) with
            | some v => .ok (some v)
            | none => includeLoop fs param cntllib rest
        else includeLoop fs param cntllib rest
      else includeLoop fs param cntllib rest

/-- Phase 4 of `resolve_symbolic_parameter` (source lines 110-114): the
direct `<cntllib>/<param>.incl` member, whose whole stripped content is the
value.  The read at line 113 is not guarded, so a raised `IOError`
propagates. -/
def directMember (fs : FS) (param : Str) (cntllib : Str) : Except Str (Option Str) :=
  if cntllib = [] then .ok none
  else
    let memberPath := pathJoinL cntllib (param ++ ".incl".data)
    if fs.pathExists memberPath then
      (fs.read memberPath).map (fun content => some (pyStrip content))
    else .ok none

/-- Phase 5 of `resolve_symbolic_parameter` (source lines 117-128): walk the
CNTLLIB tree, scanning every `.incl` file; this loop alone wraps its read
in `try/except`, so an unreadable file is skipped. -/
def walkLoop (fs : FS) (param : Str) (cntllib : Str) : Option Str :=
  if cntllib = [] then none
  else
    (fs.walk cntllib).findSome? (fun rootFiles =>
      rootFiles.2.findSome? (fun file =>
        if endsWithL ".incl".data file then
          match fs.read (pathJoinL rootFiles.1 file) with
          | .error _ => none
          | .ok content => (pyReadlines content).findSome? (paramSearch param)
        else none))

/-- Model of `resolve_symbolic_parameter` (source lines 50-131): the five
phases in source order, `.error` marking an exception escaping the
function. -/
def resolve_symbolic_parameter (fs : FS) (param : Str) (jcl : List Str)
    (procLibs : List Str) (cntllib : Str) : Except Str (Option Str) :=
  match setLoop param jcl with
  | some v => .ok (some v)
  | none =>
  match execLoop fs param procLibs jcl with
  | .error e => .error e
  | .ok (some v) => .ok (some v)
  | .ok none =>
  match includeLoop fs param cntllib jcl with
  | .error e => .error e
  | .ok (some v) => .ok (some v)
  | .ok none =>
  match directMember fs param cntllib with
  | .error e => .error e
  | .ok (some v) => .ok (some v)
  | .ok none => .ok (walkLoop fs param cntllib)

/-- Model of `extract_control_card` (source lines 250-266).  Total: every
outcome, including a read failure, is an ordinary string. -/
def extract_control_card (fs : FS) (cntllib member : Str) : Str :=
  if cntllib = [] ∨ member = [] then "[No CNTLLIB path or member specified]".data
  else
    let filePath := pathJoinL cntllib (member ++ ".incl".data)
    if !fs.pathExists filePath then
      "[Control card \x27".data ++ member ++ "\x27 not found in CNTLLIB]".data
    else
      match fs.read filePath with
      | .error e => "[Error reading control card: ".data ++ e ++ "]".data
      | .ok content =>
        if pyStrip content = [] then "[Control card file exists but is empty]".data
        else content

/-- One unit of work of the queue (source line 332): the tuple
`(file_path, utilities, file_type, cntllib_path, proc_libraries)`. -/
structure ScanTask where
  filePath : Str
  utilities : List Str
  fileType : Str
  cntlLibPath : Str
  procLibraryPaths : List Str
deriving DecidableEq, Repr

/-- The record appended per matched step (source lines 242-246), with the
fields of the 10-tuple in source order. -/
structure ExtractedStep where
  fileName : Str
  fileType : Str
  stepName : Str
  stepBlockText : Str
  resolvedProgramName : Str
  sysinType : Str
  sysinStatement : Str
  controlCardMember : Str
  controlCardContent : Str
  precedingCommentsText : Str
deriving DecidableEq, Repr

/-- Ghost bookkeeping of one emitted step's capture window: the EXEC line
index, `last_step_end` at emission time (the backward-scan stop), the
updated end index, and the indices the two scans captured. -/
structure StepWindow where
  execIdx : Nat
  boundary : Nat
  endIdx : Nat
  commentIdxs : List Nat
  blockIdxs : List Nat
deriving DecidableEq, Repr

/-- Backward comment scan (source lines 195-206): from index `j - 1` down to
`stop`, stop at a blank line or an `EXEC PGM=` line, collect `//*` lines;
`insert(0, …)` keeps them in ascending index order.  Returns
(index, stripped text) pairs. -/
def commentScan (lines : List Str) (stop : Nat) : Nat → List (Nat × Str)
  | 0 => []
  | j + 1 =>
    if j < stop then []
    else
      let l := lines.getD j []
      if pyStrip l = [] ∨ execPgmMatch l then []
      else if startsWithL "//*".data l then commentScan lines stop j ++ [(j, pyStrip l)]
      else commentScan lines stop j

/-- Forward block scan (source lines 210-216): from `j` while within the
file and not at an `EXEC PGM=` line; break on a blank line; collect `//`
lines stripped.  Returns the final index `j` together with the
(index, stripped text) pairs.  The fuel argument bounds the iteration and
equals the remaining line count at every call. -/
def fwdScanAux (lines : List Str) : Nat → Nat → Nat × List (Nat × Str)
  | 0, j => (j, [])
  | fuel + 1, j =>
    if h : j < lines.length then
      let l := lines.get ⟨j, h⟩
      if execPgmMatch l then (j, [])
      else if pyStrip l = [] then (j, [])
      else if startsWithL "//".data l then
        let rest := fwdScanAux lines fuel (j + 1)
        (rest.1, (j, pyStrip l) :: rest.2)
      else fwdScanAux lines fuel (j + 1)
    else (j, [])

def fwdScan (lines : List Str) (j : Nat) : Nat × List (Nat × Str) :=
  fwdScanAux lines (lines.length - j) j

/-- SYSIN detection over the captured block (source lines 219-238): the
first line matching an inline or control-card SYSIN wins and the scan
breaks.  Returns (sysinType, sysinStatement, member, content). -/
def sysinScan (fs : FS) (cntllib : Str) : List Str → Str × Str × Str × Str
  | [] => ("None".data, [], [], [])
  | stepLine :: rest =>
    if sysinInlineSearch stepLine then ("Inline SYSIN".data, pyStrip stepLine, [], [])
    else if sysinDsnSearch stepLine then
      match dsnMemberSearch stepLine with
      | some m => ("Control Card".data, pyStrip stepLine, m, extract_control_card fs cntllib m)
      | none => ("Control Card".data, pyStrip stepLine, [], [])
    else sysinScan fs cntllib rest

/-- The per-file extraction loop (source lines 170-246), instrumented with
the ghost `StepWindow` alongside each record.  The fuel argument bounds the
line iteration; `extractFileResult` supplies `lines.length`, which makes it
exact.  An `.error` from the resolver aborts the file's processing with the
records emitted so far, mirroring the exception escaping to the worker's
`try`. -/
def extractLoop (fs : FS) (t : ScanTask) (lines : List Str) :
    Nat → Nat → Nat → List (ExtractedStep × StepWindow) × Option Str
  | 0, _, _ => ([], none)
  | fuel + 1, i, lastEnd =>
    if h : i < lines.length then
      let line := lines.get ⟨i, h⟩
      if commentExecMatch line then extractLoop fs t lines fuel (i + 1) lastEnd
      else
        match stepExecMatch line with
        | none => extractLoop fs t lines fuel (i + 1) lastEnd
        | some sm =>
          let pn := pyUpper sm.2
          let prog : Except Str (Option Str) :=
            if startsWithL "&".data pn then
              match resolve_symbolic_parameter fs (pn.drop 1) lines t.procLibraryPaths t.cntlLibPath with
              | .error e => .error e
              | .ok none => .ok none
              | .ok (some v) => if v = [] then .ok none else .ok (some (pyUpper v))
            else .ok (some pn)
          match prog with
          | .error e => ([], some e)
          | .ok none => extractLoop fs t lines fuel (i + 1) lastEnd
          | .ok (some programName) =>
            if programName ∈ t.utilities then
              let cb := commentScan lines lastEnd i
              let fw := fwdScan lines (i + 1)
              let stepBlock := pyStrip line :: fw.2.map Prod.snd
              let sy := sysinScan fs t.cntlLibPath stepBlock
              let stepRec : ExtractedStep := {
                fileName := pyBasename t.filePath
                fileType := t.fileType
                stepName := sm.1
                stepBlockText := joinNl stepBlock
                resolvedProgramName := programName
                sysinType := sy.1
                sysinStatement := sy.2.1
                controlCardMember := sy.2.2.1
                controlCardContent := sy.2.2.2
                precedingCommentsText := joinNl (cb.map Prod.snd) }
              let w : StepWindow := {
                execIdx := i
                boundary := lastEnd
                endIdx := fw.1
                commentIdxs := cb.map Prod.fst
                blockIdxs := i :: fw.2.map Prod.fst }
              let rest := extractLoop fs t lines fuel (i + 1) fw.1
              ((stepRec, w) :: rest.1, rest.2)
            else extractLoop fs t lines fuel (i + 1) lastEnd
    else ([], none)

/-- One file's processing inside the worker's `try` (source lines 155-246):
read the file, skip it when empty, else run the loop.  The first component
collects the records appended to the shared list before any exception; the
second is the exception the worker's `except` would catch. -/
def extractFileResult (fs : FS) (t : ScanTask) :
    List (ExtractedStep × StepWindow) × Option Str :=
  match fs.read t.filePath with
  | .error e => ([], some e)
  | .ok content =>
    let lines := pyReadlines content
    if lines = [] then ([], none)
    else extractLoop fs t lines lines.length 0 0

def extractFile (fs : FS) (t : ScanTask) : List ExtractedStep × Option Str :=
  ((extractFileResult fs t).1.map Prod.fst, (extractFileResult fs t).2)

/-- Model of the worker `extract_steps_from_file` (source lines 151-248):
process the queued tasks in order; a per-file exception is caught, the
file's already-appended records remain, and the loop continues with the
next task. -/
def extract_steps_from_file (fs : FS) (tasks : List ScanTask) : List ExtractedStep :=
  tasks.flatMap (fun t => (extractFile fs t).1)

/-- The `performance` section of the configuration. -/
structure PerfConfig where
  threads : Option Nat
deriving DecidableEq, Repr

/-- The slice of the configuration that `process_files` consults for the
thread pool: `config.get('performance', {}).get('threads', 4)`. -/
structure ScanConfig where
  performance : Option PerfConfig
deriving DecidableEq, Repr

def numThreads (c : ScanConfig) : Nat :=
  match c.performance with
  | none => 4
  | some p => p.threads.getD 4

/-- Number of queued tasks (source lines 328-332): one per file of the JCL
walk whose name ends in `.jcl`. -/
def jclQueueLen (fs : FS) (jclDir : Str) : Nat :=
  ((fs.walk jclDir).map (fun rf => (rf.2.filter (fun f => endsWithL ".jcl".data f)).length)).sum

/-- Number of worker threads started (source lines 336-340):
`range(min(num_threads, file_queue.qsize()))`. -/
def launchedWorkers (c : ScanConfig) (fs : FS) (jclDir : Str) : Nat :=
  min (numThreads c) (jclQueueLen fs jclDir)

/-!
Concrete fixtures used by the witnesses and counterexamples below.  Each
filesystem lists exactly the files the scenario needs; every other path is
absent and unreadable.
-/

/-- Fixture for the SET-priority scenario: a JCL with both a local SET and
an EXEC of a PROC whose definition carries a conflicting default. -/
def fsC1 : FS where
  pathExists := fun p => p = "PLIB/APROC.proc".data
  read := fun p =>
    if p = "PLIB/APROC.proc".data then .ok "//APROC PROC UTIL=IEFBR14\n".data
    else .error "missing".data
  walk := fun _ => []

def jclC1 : List Str := ["// SET UTIL=IEBGENER".data, "//S1 EXEC APROC".data]

/-- Fixture for the EXEC-override scenario: the first EXEC line names a
PROC whose definition holds a default, the second EXEC line carries the
override. -/
def fsC2 : FS where
  pathExists := fun p => p = "PLIB/MYPROC.proc".data
  read := fun p =>
    if p = "PLIB/MYPROC.proc".data then .ok "//MYPROC PROC PARM=DEFVAL\n".data
    else .error "missing".data
  walk := fun _ => []

def lineC2a : Str := "//S1 EXEC MYPROC".data
def lineC2b : Str := "//S2 EXEC OTHER,PARM=OVERRIDE".data
def jclC2 : List Str := [lineC2a, lineC2b]

/-- Bare filesystem: nothing exists, nothing is readable, the walk is
empty. -/
def fsBare : FS where
  pathExists := fun _ => false
  read := fun _ => .error "missing".data
  walk := fun _ => []

/-- Fixture with an INCLUDE member that exists but whose read raises. -/
def fsC3 : FS where
  pathExists := fun p => p = "CL/M.incl".data
  read := fun p =>
    if p = "CL/M.incl".data then .error "boom".data else .error "missing".data
  walk := fun _ => []

/-- Fixture with a CNTLLIB walk holding an unreadable `.incl` file followed
by a readable one that defines the parameter. -/
def fsC3w : FS where
  pathExists := fun _ => false
  read := fun p =>
    if p = "CL/good.incl".data then .ok "MYPARM=FOUND\n".data
    else .error "boom".data
  walk := fun d => if d = "CL".data then [("CL".data, ["bad.incl".data, "good.incl".data])] else []

/-- Fixture file whose second step's symbolic parameter resolution raises
(the INCLUDE member exists but is unreadable) after the first step was
already appended. -/
def fsC4 : FS where
  pathExists := fun p => p = "CL/M.incl".data
  read := fun p =>
    if p = "JCLDIR/job1.jcl".data then
      .ok "//S1 EXEC PGM=IDCAMS\n//S2 EXEC &P\n//INCLUDE MEMBER=M\n".data
    else if p = "CL/M.incl".data then .error "boom".data
    else .error "missing".data
  walk := fun _ => []

def taskC4 : ScanTask where
  filePath := "JCLDIR/job1.jcl".data
  utilities := ["IDCAMS".data]
  fileType := "JCL".data
  cntlLibPath := "CL".data
  procLibraryPaths := []

/-- Minimal one-step file for the membership-invariant witness. -/
def fsC5 : FS where
  pathExists := fun _ => false
  read := fun p =>
    if p = "D/a.jcl".data then .ok "//S1 EXEC PGM=IDCAMS\n".data
    else .error "missing".data
  walk := fun _ => []

def taskC5 : ScanTask where
  filePath := "D/a.jcl".data
  utilities := ["IDCAMS".data]
  fileType := "JCL".data
  cntlLibPath := []
  procLibraryPaths := []

def recC5 : ExtractedStep where
  fileName := "a.jcl".data
  fileType := "JCL".data
  stepName := "S1".data
  stepBlockText := "//S1 EXEC PGM=IDCAMS".data
  resolvedProgramName := "IDCAMS".data
  sysinType := "None".data
  sysinStatement := []
  controlCardMember := []
  controlCardContent := []
  precedingCommentsText := []

/-- Fixture in which `<cntllib>/.incl` exists with nonblank content, probing
`extract_control_card` at the empty member name. -/
def fsC6 : FS where
  pathExists := fun p => p = "CL/.incl".data
  read := fun p =>
    if p = "CL/.incl".data then .ok "HELLO".data else .error "missing".data
  walk := fun _ => []

/-- Witness filesystem for `extract_control_card`: one readable member, one
blank member, one member whose read raises. -/
def fsC6w : FS where
  pathExists := fun p =>
    p = "CL/GOOD.incl".data ∨ p = "CL/BLANK.incl".data ∨ p = "CL/BAD.incl".data
  read := fun p =>
    if p = "CL/GOOD.incl".data then .ok " DELETE X\n".data
    else if p = "CL/BLANK.incl".data then .ok "  \n".data
    else if p = "CL/BAD.incl".data then .error "boom".data
    else .error "missing".data
  walk := fun _ => []

/-- Configuration without a `performance` section and a walk with two
`.jcl` files, for the worker-count witness. -/
def cfgC7 : ScanConfig where
  performance := none

def fsC7 : FS where
  pathExists := fun _ => false
  read := fun _ => .error "missing".data
  walk := fun d =>
    if d = "JCLDIR".data then [("JCLDIR".data, ["a.jcl".data, "b.jcl".data, "note.txt".data])] else []

/-- Two-step file in which the second EXEC lacks `PGM=` and therefore sits
inside the first step's forward block. -/
def fsC8 : FS where
  pathExists := fun _ => false
  read := fun p =>
    if p = "JCLDIR/job2.jcl".data then .ok "//S1 EXEC PGM=IDCAMS\n//S2 EXEC IEBGENER\n".data
    else .error "missing".data
  walk := fun _ => []

def taskC8 : ScanTask where
  filePath := "JCLDIR/job2.jcl".data
  utilities := ["IDCAMS".data, "IEBGENER".data]
  fileType := "JCL".data
  cntlLibPath := []
  procLibraryPaths := []

/-- Well-separated two-step file (both steps use `EXEC PGM=`), for the
amended window theorem's witness. -/
def fsC8w : FS where
  pathExists := fun _ => false
  read := fun p =>
    if p = "JCLDIR/job3.jcl".data then
      .ok "//* C1\n//S1 EXEC PGM=IDCAMS\n//DD1 DD X\n\n//* C2\n//S2 EXEC PGM=IEBGENER\n".data
    else .error "missing".data
  walk := fun _ => []

def taskC8w : ScanTask where
  filePath := "JCLDIR/job3.jcl".data
  utilities := ["IDCAMS".data, "IEBGENER".data]
  fileType := "JCL".data
  cntlLibPath := []
  procLibraryPaths := []

/-- Single-task fixture for the schedule-independence witness. -/
def fsC9 : FS where
  pathExists := fun _ => false
  read := fun p =>
    if p = "D/one.jcl".data then .ok "//S1 EXEC PGM=IDCAMS\n".data
    else .error "missing".data
  walk := fun _ => []

def taskC9 : ScanTask where
  filePath := "D/one.jcl".data
  utilities := ["IDCAMS".data]
  fileType := "JCL".data
  cntlLibPath := []
  procLibraryPaths := []

/-- Lines with inline SYSIN data, for the block-capture witness. -/
def linesC10 : List Str :=
  ["//S1 EXEC PGM=IDCAMS".data, "//SYSIN DD *".data, " DELETE X".data, "//OUT DD SYSOUT=A".data]

/-- Chain predicate tying each window's recorded boundary to the previous
window's end index, exactly as `last_step_end` is threaded through the
loop. -/
def WindowChain : Nat → List StepWindow → Prop
  | _, [] => True
  | lastEnd, w :: ws => w.boundary = lastEnd ∧ WindowChain w.endIdx ws

/-- Per-window bounds: comments lie in `[boundary, execIdx)`, block indices
below `endIdx`, and the EXEC index below `endIdx`. -/
def WindowOK (w : StepWindow) : Prop :=
  (∀ k ∈ w.commentIdxs, w.boundary ≤ k ∧ k < w.execIdx)
  ∧ (∀ k ∈ w.blockIdxs, k < w.endIdx)
  ∧ w.execIdx < w.endIdx

/-- C1: when a local `// SET` statement defines the parameter, resolution
returns that SET value for every filesystem, PROC-library list, and CNTLLIB
path — the SET loop returns before any PROC lookup can run, so a PROC
default for the same name (source 3) can never beat the SET value
(source 1). -/
theorem resolve_set_short_circuits (param v : Str) (jcl : List Str)
    (hset : setLoop param jcl = some v) :
    ∀ (fs : FS) (procLibs : List Str) (cntllib : Str),
      resolve_symbolic_parameter fs param jcl procLibs cntllib = .ok (some v) := by
  intro fs procLibs cntllib
  unfold resolve_symbolic_parameter
  rw [hset]

/-- Witness for `resolve_set_short_circuits` at a JCL defining `UTIL` both
by SET (`IEBGENER`) and as a PROC default (`IEFBR14`): the SET value wins. -/
theorem resolve_set_short_circuits_witness :
    setLoop "UTIL".data jclC1 = some "IEBGENER".data
    ∧ procDefSearch "UTIL".data "//APROC PROC UTIL=IEFBR14".data = some "IEFBR14".data
    ∧ resolve_symbolic_parameter fsC1 "UTIL".data jclC1 ["PLIB".data] []
        = .ok (some "IEBGENER".data) :=
  ⟨by decide, by decide,
   resolve_set_short_circuits "UTIL".data "IEBGENER".data jclC1 (by decide) fsC1 ["PLIB".data] []⟩

/-- C2 counterexample: with no SET statement, the later EXEC line carries
the override `PARM=OVERRIDE`, yet resolution returns `DEFVAL`, the PROC
default found through the earlier EXEC line — the override does not beat a
PROC default reached in an earlier loop iteration. -/
theorem exec_override_not_global_cex :
    setLoop "PARM".data jclC2 = none
    ∧ (execMatch lineC2b).isSome = true
    ∧ paramSearch "PARM".data lineC2b = some "OVERRIDE".data
    ∧ resolve_symbolic_parameter fsC2 "PARM".data jclC2 ["PLIB".data] []
        = .ok (some "DEFVAL".data)
    ∧ "DEFVAL".data ≠ "OVERRIDE".data := by decide

/-- C3 counterexample: the INCLUDE member `CL/M.incl` exists but its read
raises, and the exception escapes `resolve_symbolic_parameter` as is —
it is not swallowed and no later source is consulted. -/
theorem include_read_error_propagates_cex :
    resolve_symbolic_parameter fsC3 "P".data ["//INCLUDE MEMBER=M".data] [] "CL".data
      = .error "boom".data := by decide

/-- C6 counterexample: with an empty member name, the file
`CL/.incl` exists with nonblank content `HELLO`, but `extract_control_card`
returns the no-path-or-member sentinel rather than the content the claim
requires for an existing nonblank file. -/
theorem control_card_empty_member_cex :
    fsC6.pathExists (pathJoinL "CL".data ([] ++ ".incl".data)) = true
    ∧ fsC6.read (pathJoinL "CL".data ([] ++ ".incl".data)) = .ok "HELLO".data
    ∧ pyStrip "HELLO".data ≠ []
    ∧ extract_control_card fsC6 "CL".data [] ≠ "HELLO".data := by decide

/-- C2 amended: with no local SET, the EXEC lines are scanned in source
order and each line's override is checked before that same line's PROC
default; the first EXEC line contributing either an override or a PROC
default decides the result.  Hence an override wins whenever no earlier
EXEC line contributed anything — in particular it beats the PROC default
of its own line and of every later line, for every CNTLLIB state. -/
theorem exec_override_same_line_priority (fs : FS) (param : Str)
    (procLibs : List Str) (cntllib : Str) (pre : List Str) (line : Str)
    (post : List Str) (v : Str)
    (hset : setLoop param (pre ++ line :: post) = none)
    (hpre : ∀ l ∈ pre, execLineStep fs param procLibs l = .ok none)
    (hexec : (execMatch line).isSome = true)
    (hover : paramSearch param line = some v) :
    resolve_symbolic_parameter fs param (pre ++ line :: post) procLibs cntllib
      = .ok (some v) := by
  have hline : execLineStep fs param procLibs line = .ok (some v) := by
    obtain ⟨pn, hpn⟩ := Option.isSome_iff_exists.mp hexec
    unfold execLineStep
    rw [hpn, hover]
  have hloop : ∀ pre', (∀ l ∈ pre', execLineStep fs param procLibs l = .ok none) →
      execLoop fs param procLibs (pre' ++ line :: post) = .ok (some v) := by
    intro pre'
    induction pre' with
    | nil =>
      intro _
      show execLoop fs param procLibs (line :: post) = .ok (some v)
      unfold execLoop
      rw [hline]
    | cons a as ih =>
      intro hp
      have ha : execLineStep fs param procLibs a = .ok none := hp a (by simp)
      have hrest : ∀ l ∈ as, execLineStep fs param procLibs l = .ok none :=
        fun l hl => hp l (by simp [hl])
      show execLoop fs param procLibs (a :: (as ++ line :: post)) = .ok (some v)
      unfold execLoop
      rw [ha]
      exact ih hrest
  unfold resolve_symbolic_parameter
  rw [hset, hloop pre hpre]

/-- Witness for `exec_override_same_line_priority`: one inert EXEC line
(whose PROC has no definition file) before the override-carrying line. -/
theorem exec_override_same_line_priority_witness :
    resolve_symbolic_parameter fsBare "PARM".data
      ["//S0 EXEC NOPROC".data, "//S1 EXEC OTHER,PARM=OVR".data] [] []
      = .ok (some "OVR".data) :=
  exec_override_same_line_priority fsBare "PARM".data [] []
    ["//S0 EXEC NOPROC".data] "//S1 EXEC OTHER,PARM=OVR".data [] "OVR".data
    (by decide) (by decide) (by decide) (by decide)

/-- C3 amended: only the global CNTLLIB walk swallows read failures.  When
the four earlier sources contribute nothing, an unreadable `.incl` file in
the walk is skipped and resolution continues to the next file, returning
its value rather than an error.  (The counterexample shows that, by
contrast, a failing INCLUDE-member read escapes the function.) -/
theorem walk_read_errors_swallowed (fs : FS) (param : Str)
    (jcl procLibs : List Str) (cntllib root bad good : Str)
    (rest : List Str) (e content v : Str)
    (h1 : setLoop param jcl = none)
    (h2 : execLoop fs param procLibs jcl = .ok none)
    (h3 : includeLoop fs param cntllib jcl = .ok none)
    (h4 : directMember fs param cntllib = .ok none)
    (hc : cntllib ≠ [])
    (hwalk : fs.walk cntllib = [(root, bad :: good :: rest)])
    (hbad : endsWithL ".incl".data bad = true)
    (hbadRead : fs.read (pathJoinL root bad) = .error e)
    (hgood : endsWithL ".incl".data good = true)
    (hgoodRead : fs.read (pathJoinL root good) = .ok content)
    (hfind : (pyReadlines content).findSome? (paramSearch param) = some v) :
    resolve_symbolic_parameter fs param jcl procLibs cntllib = .ok (some v) := by
  have hw : walkLoop fs param cntllib = some v := by
    unfold walkLoop
    rw [if_neg hc, hwalk]
    simp only [List.findSome?_cons, List.findSome?_nil]
    rw [hbad, hbadRead, hgood, hgoodRead]
    simp [hfind]
  unfold resolve_symbolic_parameter
  rw [h1, h2, h3, h4, hw]

/-- Witness for `walk_read_errors_swallowed`: the walk of `CL` lists the
unreadable `bad.incl` before `good.incl`, which defines `MYPARM=FOUND`. -/
theorem walk_read_errors_swallowed_witness :
    resolve_symbolic_parameter fsC3w "MYPARM".data [] [] "CL".data
      = .ok (some "FOUND".data) :=
  walk_read_errors_swallowed fsC3w "MYPARM".data [] [] "CL".data
    "CL".data "bad.incl".data "good.incl".data [] "boom".data
    "MYPARM=FOUND\n".data "FOUND".data
    (by decide) (by decide) (by decide) (by decide) (by decide) (by decide)
    (by decide) (by decide) (by decide) (by decide) (by decide)

/-- C6 amended: `extract_control_card` is total — every outcome is an
ordinary string — and for a nonempty CNTLLIB path and member name: a
missing file yields the not-found sentinel, a blank file the empty-file
sentinel, readable nonblank content is returned verbatim, and a read
failure yields the error sentinel (an empty path or member yields the
no-path-or-member sentinel, as the counterexample shows). -/
theorem extract_control_card_sentinels (fs : FS) (cntllib member : Str)
    (hc : cntllib ≠ []) (hm : member ≠ []) :
    (fs.pathExists (pathJoinL cntllib (member ++ ".incl".data)) = false →
      extract_control_card fs cntllib member
        = "[Control card \x27".data ++ member ++ "\x27 not found in CNTLLIB]".data)
    ∧ (∀ content, fs.pathExists (pathJoinL cntllib (member ++ ".incl".data)) = true →
        fs.read (pathJoinL cntllib (member ++ ".incl".data)) = .ok content →
        pyStrip content = [] →
        extract_control_card fs cntllib member
          = "[Control card file exists but is empty]".data)
    ∧ (∀ content, fs.pathExists (pathJoinL cntllib (member ++ ".incl".data)) = true →
        fs.read (pathJoinL cntllib (member ++ ".incl".data)) = .ok content →
        pyStrip content ≠ [] →
        extract_control_card fs cntllib member = content)
    ∧ (∀ e, fs.pathExists (pathJoinL cntllib (member ++ ".incl".data)) = true →
        fs.read (pathJoinL cntllib (member ++ ".incl".data)) = .error e →
        extract_control_card fs cntllib member
          = "[Error reading control card: ".data ++ e ++ "]".data) := by
  have hne : ¬(cntllib = [] ∨ member = []) := by
    intro h; rcases h with h | h
    · exact hc h
    · exact hm h
  refine ⟨?_, ?_, ?_, ?_⟩
  · intro hmiss
    unfold extract_control_card
    rw [if_neg hne]
    simp [hmiss]
  · intro content hex hread hblank
    unfold extract_control_card
    rw [if_neg hne]
    simp [hex, hread, hblank]
  · intro content hex hread hblank
    unfold extract_control_card
    rw [if_neg hne]
    simp [hex, hread, hblank]
  · intro e hex hread
    unfold extract_control_card
    rw [if_neg hne]
    simp [hex, hread]

/-- Witness for `extract_control_card_sentinels`, exercising all four
branches on `fsC6w`. -/
theorem extract_control_card_sentinels_witness :
    extract_control_card fsC6w "CL".data "NONE".data
      = "[Control card \x27".data ++ "NONE".data ++ "\x27 not found in CNTLLIB]".data
    ∧ extract_control_card fsC6w "CL".data "BLANK".data
        = "[Control card file exists but is empty]".data
    ∧ extract_control_card fsC6w "CL".data "GOOD".data = " DELETE X\n".data
    ∧ extract_control_card fsC6w "CL".data "BAD".data
        = "[Error reading control card: ".data ++ "boom".data ++ "]".data :=
  ⟨(extract_control_card_sentinels fsC6w "CL".data "NONE".data (by decide) (by decide)).1
     (by decide),
   (extract_control_card_sentinels fsC6w "CL".data "BLANK".data (by decide) (by decide)).2.1
     "  \n".data (by decide) (by decide) (by decide),
   (extract_control_card_sentinels fsC6w "CL".data "GOOD".data (by decide) (by decide)).2.2.1
     " DELETE X\n".data (by decide) (by decide) (by decide),
   (extract_control_card_sentinels fsC6w "CL".data "BAD".data (by decide) (by decide)).2.2.2
     "boom".data (by decide) (by decide)⟩

/-- C7: the coordinator launches exactly `min(threads, queueLength)` worker
threads, never more than there are queued `.jcl` files, and the thread
count defaults to 4 when the configuration has no `performance` section. -/
theorem workers_launched_min (c : ScanConfig) (fs : FS) (jclDir : Str) :
    launchedWorkers c fs jclDir = min (numThreads c) (jclQueueLen fs jclDir)
    ∧ launchedWorkers c fs jclDir ≤ jclQueueLen fs jclDir
    ∧ (c.performance = none →
        launchedWorkers c fs jclDir = min 4 (jclQueueLen fs jclDir)) := by
  refine ⟨rfl, Nat.min_le_right _ _, ?_⟩
  intro h
  unfold launchedWorkers numThreads
  rw [h]

/-- Witness for `workers_launched_min`: a default configuration over a walk
with two `.jcl` files (and one other file) launches `min 4 2 = 2`
workers. -/
theorem workers_launched_min_witness :
    launchedWorkers cfgC7 fsC7 "JCLDIR".data = min 4 (jclQueueLen fsC7 "JCLDIR".data)
    ∧ jclQueueLen fsC7 "JCLDIR".data = 2 :=
  ⟨(workers_launched_min cfgC7 fsC7 "JCLDIR".data).2.2 (by decide), by decide⟩

/-- C4 counterexample: the second step's symbolic resolution raises after
the first step was already appended, so the exception is caught with the
file's contribution NOT entirely absent — one record of that file remains
in the shared collection. -/
theorem partial_records_remain_cex :
    (extractFile fsC4 taskC4).2 = some "boom".data
    ∧ (extractFile fsC4 taskC4).1 ≠ [] := by decide

/-- C4 amended: a per-file exception is caught in the worker loop — records
the file appended before the exception remain, no further records of that
file are appended, other files' contributions are exactly what they would
be alone, and the worker continues with every remaining task. -/
theorem worker_error_isolation (fs : FS) (pre : List ScanTask) (t : ScanTask)
    (post : List ScanTask) :
    extract_steps_from_file fs (pre ++ t :: post)
      = extract_steps_from_file fs pre ++ (extractFile fs t).1
          ++ extract_steps_from_file fs post := by
  unfold extract_steps_from_file
  simp

/-- Every record the extraction loop emits passed the membership guard of
source line 192. -/
theorem extractLoop_mem_utilities (fs : FS) (t : ScanTask) (lines : List Str) :
    ∀ (fuel i lastEnd : Nat) (rw : ExtractedStep × StepWindow),
      rw ∈ (extractLoop fs t lines fuel i lastEnd).1 →
      rw.1.resolvedProgramName ∈ t.utilities := by
  intro fuel
  induction fuel with
  | zero =>
    intro i lastEnd rw hmem
    simp [extractLoop] at hmem
  | succ n ih =>
    intro i lastEnd rw hmem
    unfold extractLoop at hmem
    by_cases hi : i < lines.length
    · rw [dif_pos hi] at hmem
      dsimp only at hmem
      by_cases hce : commentExecMatch (lines.get ⟨i, hi⟩) = true
      · rw [if_pos hce] at hmem
        exact ih _ _ _ hmem
      · rw [if_neg hce] at hmem
        split at hmem
        · exact ih _ _ _ hmem
        · split at hmem
          · simp at hmem
          · exact ih _ _ _ hmem
          · rename_i programName heq
            split at hmem
            · rename_i hin
              rcases List.mem_cons.mp hmem with hrw | hrest
              · subst hrw; exact hin
              · exact ih _ _ _ hrest
            · exact ih _ _ _ hmem
    · rw [dif_neg hi] at hmem
      simp at hmem

/-- C5: every record appended to the shared result collection carries a
resolved program name that is a member of the task's utility set; steps
whose literal or resolved name is outside the set, and steps whose symbolic
parameter does not resolve, are never emitted. -/
theorem emitted_program_mem_utilities (fs : FS) (t : ScanTask)
    (r : ExtractedStep) (hr : r ∈ (extractFile fs t).1) :
    r.resolvedProgramName ∈ t.utilities := by
  unfold extractFile at hr
  obtain ⟨rw, hrw, hfst⟩ := List.mem_map.mp hr
  subst hfst
  unfold extractFileResult at hrw
  revert hrw
  split
  · intro hrw; simp at hrw
  · dsimp only
    split
    · intro hrw; simp at hrw
    · intro hrw
      exact extractLoop_mem_utilities fs t _ _ _ _ rw hrw

/-- Witness for `emitted_program_mem_utilities` on the one-step IDCAMS
file. -/
theorem emitted_program_mem_utilities_witness :
    recC5 ∈ (extractFile fsC5 taskC5).1
    ∧ recC5.resolvedProgramName ∈ taskC5.utilities :=
  ⟨by decide, emitted_program_mem_utilities fsC5 taskC5 recC5 (by decide)⟩

/-- Permuting the task list permutes the concatenated per-task outputs. -/
theorem perm_flatMap_of_perm {α β : Type} (f : α → List β) {l₁ l₂ : List α}
    (h : l₁.Perm l₂) : (l₁.flatMap f).Perm (l₂.flatMap f) := by
  induction h with
  | nil => simp
  | cons x _ ih => simpa using ih.append_left (f x)
  | swap x y l =>
    simp only [List.flatMap_cons, ← List.append_assoc]
    exact List.Perm.append_right _ List.perm_append_comm
  | trans _ _ ih₁ ih₂ => exact ih₁.trans ih₂

/-- Splitting work among workers and concatenating equals processing the
concatenation. -/
theorem flatten_map_flatMap {α β : Type} (f : α → List β) (p : List (List α)) :
    (p.map (fun ws => ws.flatMap f)).flatten = p.flatten.flatMap f := by
  induction p with
  | nil => simp
  | cons a as ih => simp [ih, List.flatMap_append]

/-- C9: the scan's result collection depends on the scheduled tasks only up
to permutation.  Model: a schedule assigns each worker a task list; the
shared collection is an interleaving (hence a permutation) of the workers'
outputs.  Two schedules over the same task multiset — e.g. one worker
versus eight — produce permutation-equal collections, and re-running an
identical schedule reproduces the same multiset. -/
theorem scan_schedule_independent (fs : FS) (p₁ p₂ : List (List ScanTask))
    (res₁ res₂ : List ExtractedStep)
    (htasks : p₁.flatten.Perm p₂.flatten)
    (h₁ : res₁.Perm (p₁.map (extract_steps_from_file fs)).flatten)
    (h₂ : res₂.Perm (p₂.map (extract_steps_from_file fs)).flatten) :
    res₁.Perm res₂ := by
  have key : ((p₁.map (extract_steps_from_file fs)).flatten).Perm
      ((p₂.map (extract_steps_from_file fs)).flatten) := by
    unfold extract_steps_from_file
    rw [flatten_map_flatMap, flatten_map_flatMap]
    exact perm_flatMap_of_perm _ htasks
  exact (h₁.trans key).trans h₂.symm

/-- Witness for `scan_schedule_independent`: one worker holding the single
task versus two workers of which the second holds it. -/
theorem scan_schedule_independent_witness :
    (extract_steps_from_file fsC9 [taskC9]).Perm
      (([([] : List ScanTask), [taskC9]].map (extract_steps_from_file fsC9)).flatten) :=
  scan_schedule_independent fsC9 [[taskC9]] [[], [taskC9]]
    (extract_steps_from_file fsC9 [taskC9])
    (([([] : List ScanTask), [taskC9]].map (extract_steps_from_file fsC9)).flatten)
    (by decide) (by decide) (List.Perm.refl _)

/-- Dropping leading whitespace cannot cross a `//` that follows. -/
theorem dropWhile_space_append_slashes (xs t : Str) :
    (xs ++ '/' :: '/' :: t).dropWhile isSpaceChar
      = xs.dropWhile isSpaceChar ++ '/' :: '/' :: t := by
  induction xs with
  | nil => simp [List.dropWhile_cons, isSpaceChar]
  | cons a as ih =>
    by_cases ha : isSpaceChar a
    · simp [List.dropWhile_cons, ha, ih]
    · simp [List.dropWhile_cons, ha]

/-- Stripping a line that starts with `//` keeps the `//` in front: only a
whitespace suffix is removed. -/
theorem pyStrip_keeps_slashes (l : Str) (h : startsWithL ['/', '/'] l = true) :
    startsWithL ['/', '/'] (pyStrip l) = true := by
  cases l with
  | nil => simp [startsWithL] at h
  | cons c cs =>
    cases cs with
    | nil => simp [startsWithL] at h
    | cons d ds =>
      simp only [startsWithL, Bool.and_eq_true, decide_eq_true_eq] at h
      obtain ⟨rfl, rfl, -⟩ := h
      unfold pyStrip
      rw [List.dropWhile_cons]
      simp only [show isSpaceChar '/' = false by decide, Bool.false_eq_true, if_false]
      rw [show ('/' :: '/' :: ds : Str).reverse = ds.reverse ++ '/' :: '/' :: [] by simp,
        dropWhile_space_append_slashes, List.reverse_append]
      simp [startsWithL]

/-- Every line captured by the forward scan starts with `//` verbatim. -/
theorem fwdScanAux_all_slashes (lines : List Str) :
    ∀ (fuel j : Nat) (p : Nat × Str), p ∈ (fwdScanAux lines fuel j).2 →
      startsWithL ['/', '/'] p.2 = true := by
  intro fuel
  induction fuel with
  | zero =>
    intro j p hp
    simp [fwdScanAux] at hp
  | succ n ih =>
    intro j p hp
    unfold fwdScanAux at hp
    by_cases hj : j < lines.length
    · rw [dif_pos hj] at hp
      dsimp only at hp
      split at hp
      · simp at hp
      · split at hp
        · simp at hp
        · split at hp
          · rename_i hsl
            rcases List.mem_cons.mp hp with h1 | h2
            · subst h1
              exact pyStrip_keeps_slashes _ hsl
            · exact ih _ _ h2
          · exact ih _ _ hp
    · rw [dif_neg hj] at hp
      simp at hp

/-- A matched EXEC line starts with `//`. -/
theorem stepExecMatch_slashes (line : Str) (sm : Str × Str)
    (hm : stepExecMatch line = some sm) : startsWithL ['/', '/'] line = true := by
  unfold stepExecMatch at hm
  split at hm
  · simp [startsWithL]
  · exact absurd hm (by simp)

/-- C10: the captured step block consists of `//` lines only — the
originating EXEC line (stripped) leads it, every line the forward scan
collects starts with `//`, and a nonblank line that does not start with
`//` and is not an `EXEC PGM=` boundary is skipped without being captured
and without ending the scan, so `//` lines beyond it still land in the same
block. -/
theorem step_block_all_slashes (lines : List Str) (j : Nat) (line : Str)
    (sm : Str × Str) (hm : stepExecMatch line = some sm) :
    startsWithL "//".data (pyStrip line) = true
    ∧ (∀ p ∈ (fwdScan lines j).2, startsWithL "//".data p.2 = true)
    ∧ (∀ hj : j < lines.length,
        pyStrip (lines.get ⟨j, hj⟩) ≠ [] →
        startsWithL "//".data (lines.get ⟨j, hj⟩) = false →
        execPgmMatch (lines.get ⟨j, hj⟩) = false →
        fwdScan lines j = fwdScan lines (j + 1)) := by
  refine ⟨pyStrip_keeps_slashes line (stepExecMatch_slashes line sm hm), ?_, ?_⟩
  · intro p hp
    exact fwdScanAux_all_slashes lines _ j p hp
  · intro hj hblank hslash hpgm
    unfold fwdScan
    rw [show lines.length - j = (lines.length - (j + 1)) + 1 by omega]
    conv_lhs => unfold fwdScanAux
    rw [dif_pos hj]
    dsimp only
    rw [if_neg (by rw [hpgm]; exact Bool.false_ne_true), if_neg hblank,
      if_neg (by rw [hslash]; exact Bool.false_ne_true)]

/-- Witness for `step_block_all_slashes` on a block containing inline SYSIN
data: the scan skips the data line at index 2 and still captures the `//`
line at index 3. -/
theorem step_block_all_slashes_witness :
    startsWithL "//".data (pyStrip "//S1 EXEC PGM=IDCAMS".data) = true
    ∧ fwdScan linesC10 2 = fwdScan linesC10 3
    ∧ (fwdScan linesC10 1).2.map Prod.fst = [1, 3] := by
  refine ⟨(step_block_all_slashes linesC10 2 "//S1 EXEC PGM=IDCAMS".data
    ("S1".data, "IDCAMS".data) (by decide)).1, ?_, by decide⟩
  exact (step_block_all_slashes linesC10 2 "//S1 EXEC PGM=IDCAMS".data
    ("S1".data, "IDCAMS".data) (by decide)).2.2 (by decide) (by decide) (by decide) (by decide)

/-- C8 counterexample: in a two-line file whose second EXEC lacks `PGM=`,
index 1 lies in the first step's block capture AND is the second step's own
EXEC line, so the two adjacent steps' capture windows share a source
line. -/
theorem adjacent_windows_overlap_cex :
    (extractFileResult fsC8 taskC8).1.map Prod.snd
      = [{ execIdx := 0, boundary := 0, endIdx := 2, commentIdxs := [], blockIdxs := [0, 1] },
         { execIdx := 1, boundary := 2, endIdx := 2, commentIdxs := [], blockIdxs := [1] }]
    ∧ (1 : Nat) ∈ ([0, 1] : List Nat) ∧ (1 : Nat) ∈ ([1] : List Nat) := by decide

/-- Indices collected by the backward comment scan lie in `[stop, j)`. -/
theorem commentScan_idx_bounds (lines : List Str) (stop : Nat) :
    ∀ (j : Nat) (p : Nat × Str), p ∈ commentScan lines stop j →
      stop ≤ p.1 ∧ p.1 < j := by
  intro j
  induction j with
  | zero =>
    intro p hp
    simp [commentScan] at hp
  | succ m ih =>
    intro p hp
    unfold commentScan at hp
    split at hp
    · simp at hp
    · rename_i hstop
      dsimp only at hp
      split at hp
      · simp at hp
      · split at hp
        · rcases List.mem_append.mp hp with h1 | h2
          · have := ih p h1
            omega
          · simp at h2
            have : p.1 = m := by rw [h2]
            omega
        · have := ih p hp
          omega

/-- The forward scan never moves backwards, and every collected index lies
in `[j, endIdx)`. -/
theorem fwdScanAux_idx_bounds (lines : List Str) :
    ∀ (fuel j : Nat),
      j ≤ (fwdScanAux lines fuel j).1
      ∧ ∀ p ∈ (fwdScanAux lines fuel j).2, j ≤ p.1 ∧ p.1 < (fwdScanAux lines fuel j).1 := by
  intro fuel
  induction fuel with
  | zero =>
    intro j
    refine ⟨Nat.le_refl _, ?_⟩
    intro p hp
    simp [fwdScanAux] at hp
  | succ n ih =>
    intro j
    unfold fwdScanAux
    by_cases hj : j < lines.length
    · rw [dif_pos hj]
      dsimp only
      split
      · exact ⟨Nat.le_refl _, by intro p hp; simp at hp⟩
      · split
        · exact ⟨Nat.le_refl _, by intro p hp; simp at hp⟩
        · split
          · refine ⟨Nat.le_of_lt (Nat.lt_of_lt_of_le (Nat.lt_succ_self j) (ih (j + 1)).1), ?_⟩
            intro p hp
            rcases List.mem_cons.mp hp with h1 | h2
            · subst h1
              exact ⟨Nat.le_refl _, Nat.lt_of_lt_of_le (Nat.lt_succ_self j) (ih (j + 1)).1⟩
            · have := (ih (j + 1)).2 p h2
              omega
          · have := ih (j + 1)
            refine ⟨by omega, ?_⟩
            intro p hp
            have := this.2 p hp
            omega
    · rw [dif_neg hj]
      exact ⟨Nat.le_refl _, by intro p hp; simp at hp⟩

/-- The window recorded at an emission from line `i` with boundary
`lastEnd` satisfies the per-window bounds. -/
theorem windowOK_of_capture (lines : List Str) (lastEnd i : Nat) :
    WindowOK { execIdx := i, boundary := lastEnd, endIdx := (fwdScan lines (i + 1)).1,
               commentIdxs := (commentScan lines lastEnd i).map Prod.fst,
               blockIdxs := i :: (fwdScan lines (i + 1)).2.map Prod.fst } := by
  have hfw := fwdScanAux_idx_bounds lines (lines.length - (i + 1)) (i + 1)
  unfold WindowOK
  dsimp only
  refine ⟨?_, ?_, ?_⟩
  · intro k hk
    obtain ⟨p, hp, rfl⟩ := List.mem_map.mp hk
    exact commentScan_idx_bounds lines lastEnd i p hp
  · intro k hk
    rcases List.mem_cons.mp hk with h1 | h2
    · rw [h1]
      show i < (fwdScan lines (i + 1)).1
      unfold fwdScan
      omega
    · obtain ⟨p, hp, rfl⟩ := List.mem_map.mp h2
      have := hfw.2 p hp
      show p.1 < (fwdScan lines (i + 1)).1
      unfold fwdScan
      omega
  · show i < (fwdScan lines (i + 1)).1
    unfold fwdScan
    omega

/-- The loop threads `last_step_end` so that every emitted window's
recorded boundary is the previous window's end index, and each window's
captures respect its own bounds. -/
theorem extractLoop_window_chain (fs : FS) (t : ScanTask) (lines : List Str) :
    ∀ (fuel i lastEnd : Nat),
      WindowChain lastEnd ((extractLoop fs t lines fuel i lastEnd).1.map (fun rw => rw.2))
      ∧ ∀ rw ∈ (extractLoop fs t lines fuel i lastEnd).1, WindowOK rw.2 := by
  intro fuel
  induction fuel with
  | zero =>
    intro i lastEnd
    refine ⟨by simp [extractLoop, WindowChain], ?_⟩
    intro rw hrw
    simp [extractLoop] at hrw
  | succ n ih =>
    intro i lastEnd
    unfold extractLoop
    by_cases hi : i < lines.length
    · rw [dif_pos hi]
      dsimp only
      split
      · exact ih (i + 1) lastEnd
      · split
        · exact ih (i + 1) lastEnd
        · split
          · exact ⟨by simp [WindowChain], by intro rw hrw; simp at hrw⟩
          · exact ih (i + 1) lastEnd
          · split
            · rename_i programName heq hin
              constructor
              · refine ⟨rfl, ?_⟩
                exact (ih (i + 1) (fwdScan lines (i + 1)).1).1
              · intro rw hrw
                rcases List.mem_cons.mp hrw with h1 | h2
                · subst h1
                  exact windowOK_of_capture lines lastEnd i
                · exact (ih (i + 1) (fwdScan lines (i + 1)).1).2 rw h2
            · exact ih (i + 1) lastEnd
    · rw [dif_neg hi]
      refine ⟨by simp [WindowChain], ?_⟩
      intro rw hrw
      simp at hrw

/-- Adjacent entries of a window chain satisfy the boundary equation. -/
theorem windowChain_adjacent (w₁ w₂ : StepWindow) (post : List StepWindow) :
    ∀ (pre : List StepWindow) (le : Nat),
      WindowChain le (pre ++ w₁ :: w₂ :: post) → w₂.boundary = w₁.endIdx := by
  intro pre
  induction pre with
  | nil =>
    intro le h
    exact h.2.1
  | cons x xs ih =>
    intro le h
    exact ih _ h.2

/-- C8 amended: for consecutively emitted steps, the later step's backward
comment scan stops exactly at the earlier step's recorded end boundary
(`last_step_end`), every index the earlier step captured lies below that
boundary, and every comment index of the later step lies at or above it —
so no source line contributes both to the earlier step's captures and to
the later step's comment capture.  (The counterexample shows the later
step's BLOCK capture can still overlap the earlier block when its EXEC line
lacks `PGM=`.) -/
theorem adjacent_comment_windows_separated (fs : FS) (t : ScanTask)
    (pre : List (ExtractedStep × StepWindow)) (a b : ExtractedStep × StepWindow)
    (post : List (ExtractedStep × StepWindow))
    (hsplit : (extractFileResult fs t).1 = pre ++ a :: b :: post) :
    b.2.boundary = a.2.endIdx
    ∧ (∀ k ∈ a.2.blockIdxs, k < a.2.endIdx)
    ∧ (∀ k ∈ a.2.commentIdxs, k < a.2.endIdx)
    ∧ (∀ k ∈ b.2.commentIdxs, a.2.endIdx ≤ k)
    ∧ (∀ k ∈ b.2.commentIdxs, k ∉ a.2.blockIdxs ∧ k ∉ a.2.commentIdxs) := by
  have hck : WindowChain 0 ((extractFileResult fs t).1.map (fun rw => rw.2))
      ∧ ∀ rw ∈ (extractFileResult fs t).1, WindowOK rw.2 := by
    unfold extractFileResult
    split
    · exact ⟨trivial, by intro rw hrw; simp at hrw⟩
    · dsimp only
      split
      · exact ⟨trivial, by intro rw hrw; simp at hrw⟩
      · exact extractLoop_window_chain fs t _ _ _ _
  have ha : WindowOK a.2 := hck.2 a (by rw [hsplit]; simp)
  have hb : WindowOK b.2 := hck.2 b (by rw [hsplit]; simp)
  have hchain := hck.1
  rw [hsplit] at hchain
  have hchain' : WindowChain 0
      (pre.map (fun rw => rw.2) ++ a.2 :: b.2 :: post.map (fun rw => rw.2)) := by
    simpa using hchain
  have hadj : b.2.boundary = a.2.endIdx :=
    windowChain_adjacent a.2 b.2 (post.map (fun rw => rw.2)) (pre.map (fun rw => rw.2)) 0 hchain'
  have haAll : ∀ k ∈ a.2.commentIdxs, k < a.2.endIdx := by
    intro k hk
    have h1 := ha.1 k hk
    have h2 := ha.2.2
    omega
  have hbLow : ∀ k ∈ b.2.commentIdxs, a.2.endIdx ≤ k := by
    intro k hk
    have h1 := hb.1 k hk
    omega
  refine ⟨hadj, ha.2.1, haAll, hbLow, ?_⟩
  intro k hk
  have hge := hbLow k hk
  constructor
  · intro hkin
    have := ha.2.1 k hkin
    omega
  · intro hkin
    have := haAll k hkin
    omega

/-- Witness for `adjacent_comment_windows_separated` on the two well-formed
steps of `fsC8w`: the second step's comment scan (index 4) starts at the
first step's boundary 3, above every index the first step captured. -/
theorem adjacent_comment_windows_separated_witness :
    (3 : Nat) = 3
    ∧ (∀ k ∈ ([4] : List Nat), k ∉ ([1, 2] : List Nat) ∧ k ∉ ([0] : List Nat)) :=
  let a : ExtractedStep × StepWindow :=
    ({ fileName := "job3.jcl".data, fileType := "JCL".data, stepName := "S1".data,
       stepBlockText := "//S1 EXEC PGM=IDCAMS\n//DD1 DD X".data,
       resolvedProgramName := "IDCAMS".data, sysinType := "None".data,
       sysinStatement := [], controlCardMember := [], controlCardContent := [],
       precedingCommentsText := "//* C1".data },
     { execIdx := 1, boundary := 0, endIdx := 3, commentIdxs := [0], blockIdxs := [1, 2] })
  let b : ExtractedStep × StepWindow :=
    ({ fileName := "job3.jcl".data, fileType := "JCL".data, stepName := "S2".data,
       stepBlockText := "//S2 EXEC PGM=IEBGENER".data,
       resolvedProgramName := "IEBGENER".data, sysinType := "None".data,
       sysinStatement := [], controlCardMember := [], controlCardContent := [],
       precedingCommentsText := "//* C2".data },
     { execIdx := 5, boundary := 3, endIdx := 6, commentIdxs := [4], blockIdxs := [5] })
  have h := adjacent_comment_windows_separated fsC8w taskC8w [] a b [] (by decide)
  ⟨h.1, h.2.2.2.2⟩
